import Mathlib

/-!
# Verification of the ldapts LDAP client core

Shallow embedding of the parts of the `ldapts` TypeScript sources that the
specification's claims are about: the filter model (`EqualityFilter`,
`AndFilter`, `OrFilter`, the BER `FilterParser`), the `RDN` distinguished-name
component, and the `Client` protocol engine (message-id allocation, the paged
search loop `_sendSearch`, the `socketClose` handler, `search` control
validation, and `unbind`).

JavaScript runtime values that matter to the claims are modelled explicitly:
a value that is either a string or a `Buffer` is `JsVal`, where a buffer
carries an allocation identity `ref` (JavaScript `===` on objects compares
references) together with its byte content, represented as the string it
decodes to under UTF-8.
-/

namespace Ldapts

/-- A JavaScript value that is either a string or a Buffer.  `buf ref c`
is a Buffer object with allocation identity `ref` whose bytes are the UTF-8
encoding of `c`; `===` between two buffers compares `ref`. -/
inductive JsVal where
  | str (s : String)
  | buf (ref : Nat) (content : String)
deriving Repr, DecidableEq

/-- `Buffer.prototype.toString('utf8')` on a buffer, identity on a string
(the `stringValue` conversion in `EqualityFilter.matches`). -/
def JsVal.utf8 : JsVal → String
  | .str s => s
  | .buf _ c => c

/-- JavaScript `String.prototype.toLowerCase()`. -/
def jsToLowerCase (s : String) : String := String.mk (s.data.map Char.toLower)

/-- Modelled from the spec: the `SearchFilter` enum is not among the given
sources; the spec (§4.2) lists the RFC 4511 CHOICE tags `and [0]`, `or [1]`,
`not [2]`, `equalityMatch [3]`, context-specific constructed class, hence
`0xa0 + n`. -/
def SearchFilterTag.and : Nat := 0xa0

/-- Modelled from the spec: BER tag of `or`, see `SearchFilterTag.and`. -/
def SearchFilterTag.or : Nat := 0xa1

/-- Modelled from the spec: BER tag of `not`, see `SearchFilterTag.and`. -/
def SearchFilterTag.notTag : Nat := 0xa2

/-- Modelled from the spec: BER tag of `equalityMatch`, see
`SearchFilterTag.and`. -/
def SearchFilterTag.equalityMatch : Nat := 0xa3

/-- A BER element at the structural level delivered by the `asn1`
reader/writer primitive (the spec's §1 declares this primitive an assumed
external collaborator): a tagged sequence of elements, a string, or an
octet string (buffer content represented as the string it UTF-8-decodes
to). -/
inductive BerElem where
  | seq (tag : Nat) (children : List BerElem)
  | str (s : String)
  | octets (content : String)
deriving Repr

/-- The filter tree restricted to the variants whose sources are given:
`AndFilter`, `OrFilter`, `NotFilter` (its dispatch is inlined in
`FilterParser.parse`), `EqualityFilter`.  The field `attr` renders the
TypeScript field `attribute` (a Lean keyword). -/
inductive Filter where
  | and (filters : List Filter)
  | or (filters : List Filter)
  | not (filter : Filter)
  | equality (attr : String) (value : JsVal)
deriving Repr

/-- `reader.readString()` of the `asn1` primitive at the structural level:
reads a string or the UTF-8 decoding of an octet string. -/
def readStringElem : BerElem → Option String
  | .str s => some s
  | .octets c => some c
  | .seq _ _ => none

mutual

/-- `Filter.write` composed with each variant's `writeFilter`
(`AndFilter.writeFilter`, `OrFilter.writeFilter`,
`EqualityFilter.writeFilter` write their bodies; the enclosing
`writer.startSequence(this.type) … endSequence()` envelope is modelled from
the spec: each variant writes its BER tag around the body, the `Filter`
base class is not among the given sources).  `EqualityFilter.writeFilter`
writes the attribute as a string, then the value: `writeBuffer` when the
value is a Buffer, `writeString` otherwise. -/
def Filter.write : Filter → BerElem
  | .and fs => .seq SearchFilterTag.and (Filter.writeList fs)
  | .or fs => .seq SearchFilterTag.or (Filter.writeList fs)
  | .not f => .seq SearchFilterTag.notTag [Filter.write f]
  | .equality a v =>
    .seq SearchFilterTag.equalityMatch
      [.str a, match v with | .str s => .str s | .buf _ c => .octets c]

/-- The `for (const filter of this.filters) filter.write(writer)` loops of
`AndFilter.writeFilter` / `OrFilter.writeFilter`. -/
def Filter.writeList : List Filter → List BerElem
  | [] => []
  | f :: fs => Filter.write f :: Filter.writeList fs

end

/-- `EqualityFilter.parseFilter`: reads the attribute
(`(reader.readString() || '').toLowerCase()`), reads the value, and
lowercases the value when the attribute is `objectclass`. -/
def parseEqualityChildren : List BerElem → Option Filter
  | [attrElem, valueElem] =>
    match readStringElem attrElem, readStringElem valueElem with
    | some a, some v =>
      let a := jsToLowerCase a
      some (.equality a (.str (if a = "objectclass" then jsToLowerCase v else v)))
    | _, _ => none
  | _ => none

mutual

/-- `FilterParser.parse`: reads the tag of the next BER element and
dispatches; `and`/`or` read a set of child filters (`_parseSet`), `not`
recursively parses exactly one child, `equalityMatch` delegates to
`EqualityFilter.parseFilter` (`parseEqualityChildren`).  An unknown tag
throws `Invalid search filter type` (`none`). -/
def FilterParser.parse : BerElem → Option Filter
  | .seq tag children =>
    if tag = SearchFilterTag.and then
      (FilterParser.parseSet children).map .and
    else if tag = SearchFilterTag.or then
      (FilterParser.parseSet children).map .or
    else if tag = SearchFilterTag.notTag then
      FilterParser.parseNotChildren children
    else if tag = SearchFilterTag.equalityMatch then
      parseEqualityChildren children
    else none
  | _ => none

/-- The `not` arm of `FilterParser.parse`: the nested filter. -/
def FilterParser.parseNotChildren : List BerElem → Option Filter
  | [inner] => (FilterParser.parse inner).map .not
  | _ => none

/-- `FilterParser._parseSet`: parses child filters until the enclosing
sequence is exhausted. -/
def FilterParser.parseSet : List BerElem → Option (List Filter)
  | [] => some []
  | e :: es =>
    match FilterParser.parse e, FilterParser.parseSet es with
    | some f, some fs => some (f :: fs)
    | _, _ => none

end

/-- A directory entry as the evaluator sees it: a JavaScript object mapping
attribute names to values, modelled as an association list in property
order. -/
def Entry := List (String × JsVal)

/-- Modelled from the spec: the `getObjectValue` helper of the `Filter`
base class (`src/filters/Filter.ts`, not among the given sources) looks up
the filter's attribute in the entry — by exact name when `strictAttributeCase`
is set and the exact name is present, otherwise by case-insensitive name
(§3: attribute names are case-insensitive for comparison). -/
def getObjectValue (entry : Entry) (key : String) (strictAttributeCase : Bool) : Option JsVal :=
  if strictAttributeCase ∧ (entry.find? (fun kv => kv.1 = key)).isSome then
    (entry.find? (fun kv => kv.1 = key)).map (·.2)
  else
    (entry.find? (fun kv => jsToLowerCase kv.1 = jsToLowerCase key)).map (·.2)

/-- `EqualityFilter.matches` given the looked-up entry value: when both the
filter value and the entry value are Buffers, JavaScript `===` compares the
two object references; otherwise the filter value is converted to a UTF-8
string and compared with `===` (strict case) or after `.toLowerCase()` on
both sides.  `===` between a string and a Buffer object is `false`;
`.toLowerCase()` on a Buffer throws a `TypeError` (`none`). -/
def equalityCompare (filterValue entryValue : JsVal) (strictAttributeCase : Bool) : Option Bool :=
  match filterValue, entryValue with
  | .buf r1 _, .buf r2 _ => some (r1 = r2)
  | fv, .str es =>
    let stringValue := fv.utf8
    if strictAttributeCase then some (stringValue = es)
    else some (jsToLowerCase stringValue = jsToLowerCase es)
  | _, .buf _ _ =>
    if strictAttributeCase then some false else none

mutual

/-- The `matches(objectToCheck, strictAttributeCase)` evaluator of the
embedded filter variants.  `AndFilter.matches` returns `true` on an empty
child list, else `false` as soon as a child does not match;
`OrFilter.matches` returns `true` on an empty child list (the source's
literal behavior), else `true` as soon as a child matches;
`EqualityFilter.matches` looks the attribute up and compares
(`equalityCompare`), returning `false` when the entry lacks the attribute.
`NotFilter.matches` is modelled from the spec: it negates its child (the
`NotFilter` source is not among the given files).  A thrown `TypeError`
propagates (`none`). -/
def Filter.matches : Filter → Entry → Bool → Option Bool
  | .and fs, entry, strict =>
    if fs.isEmpty then some true else Filter.matchesAll fs entry strict
  | .or fs, entry, strict =>
    if fs.isEmpty then some true else Filter.matchesAny fs entry strict
  | .not f, entry, strict => (Filter.matches f entry strict).map (!·)
  | .equality a v, entry, strict =>
    match getObjectValue entry a strict with
    | some entryValue => equalityCompare v entryValue strict
    | none => some false

/-- The child loop of `AndFilter.matches`: stops at the first child that
returns `false` (or throws), `true` once all children matched. -/
def Filter.matchesAll : List Filter → Entry → Bool → Option Bool
  | [], _, _ => some true
  | f :: fs, entry, strict =>
    match Filter.matches f entry strict with
    | some true => Filter.matchesAll fs entry strict
    | other => other

/-- The child loop of `OrFilter.matches`: stops at the first child that
returns `true` (or throws), `false` once no child matched. -/
def Filter.matchesAny : List Filter → Entry → Bool → Option Bool
  | [], _, _ => some false
  | f :: fs, entry, strict =>
    match Filter.matches f entry strict with
    | some false => Filter.matchesAny fs entry strict
    | other => other

end

/-- Structural induction for the nested `Filter` tree: the motive holds of
every filter once it is preserved by each constructor from its child
filters. -/
theorem Filter.inductionOn {motive : Filter → Prop}
    (hand : ∀ fs, (∀ f ∈ fs, motive f) → motive (.and fs))
    (hor : ∀ fs, (∀ f ∈ fs, motive f) → motive (.or fs))
    (hnot : ∀ f, motive f → motive (.not f))
    (heq : ∀ a v, motive (.equality a v)) : ∀ f, motive f := by
  have key : ∀ n f, sizeOf f ≤ n → motive f := by
    intro n
    induction n with
    | zero =>
      intro f hf
      cases f <;> simp_arith at hf
    | succ n ih =>
      intro f hf
      match f with
      | .and fs =>
        refine hand fs fun g hg => ih g ?_
        have := List.sizeOf_lt_of_mem hg
        simp_arith at hf
        omega
      | .or fs =>
        refine hor fs fun g hg => ih g ?_
        have := List.sizeOf_lt_of_mem hg
        simp_arith at hf
        omega
      | .not g =>
        refine hnot g (ih g ?_)
        simp_arith at hf
        omega
      | .equality a v => exact heq a v
  exact fun f => key (sizeOf f) f le_rfl

mutual

/-- The filters on which the binary round-trip can hold: every equality
node carries a string (not Buffer) value, an attribute that is already
lowercase, and — when the attribute is `objectclass` — an already-lowercase
value. -/
def goodFilter : Filter → Bool
  | .and fs => goodFilterList fs
  | .or fs => goodFilterList fs
  | .not f => goodFilter f
  | .equality a v =>
    match v with
    | .str s => jsToLowerCase a = a && (a ≠ "objectclass" || jsToLowerCase s = s)
    | .buf _ _ => false

/-- `goodFilter` over a child list. -/
def goodFilterList : List Filter → Bool
  | [] => true
  | f :: fs => goodFilter f && goodFilterList fs

end

/-- `FilterParser._parseSet` inverts the child-writing loops, given that
each child filter round-trips. -/
theorem parseSet_writeList (fs : List Filter)
    (h : ∀ g ∈ fs, goodFilter g = true → FilterParser.parse (Filter.write g) = some g)
    (hg : goodFilterList fs = true) :
    FilterParser.parseSet (Filter.writeList fs) = some fs := by
  induction fs with
  | nil => simp [Filter.writeList, FilterParser.parseSet]
  | cons g gs ih =>
    rw [goodFilterList] at hg
    simp only [Bool.and_eq_true] at hg
    rw [Filter.writeList, FilterParser.parseSet,
      h g (List.mem_cons_self g gs) hg.1,
      ih (fun x hx => h x (List.mem_cons_of_mem g hx)) hg.2]

/-- C1: the claim `parseBinary(encodeBinary(F)) ≡ F` fails as stated:
encoding the equality filter with attribute `"CN"` and value `"x"` and
decoding it yields the filter with attribute `"cn"`, which is not
structurally equal to the original (`EqualityFilter.parseFilter` lowercases
the attribute). -/
theorem c1_counterexample :
    FilterParser.parse (Filter.write (.equality "CN" (.str "x")))
      = some (.equality "cn" (.str "x"))
    ∧ Filter.equality "cn" (.str "x") ≠ Filter.equality "CN" (.str "x") := by
  constructor
  · rw [Filter.write, FilterParser.parse]
    norm_num [SearchFilterTag.equalityMatch, SearchFilterTag.and,
      SearchFilterTag.or, SearchFilterTag.notTag]
    rfl
  · intro h
    injection h with h1 _
    exact absurd h1 (by decide)

/-- C1 (amended): decoding the BER binary encoding of `F` yields a filter
structurally equal to `F` for every filter `F` (over the embedded variants
And, Or, Not, Equality) whose equality nodes carry string values and
already-lowercase attributes, with the value also already lowercase whenever
the attribute is `objectclass`. -/
theorem c1_roundtrip_amended : ∀ f : Filter, goodFilter f = true →
    FilterParser.parse (Filter.write f) = some f := by
  intro f
  induction f using Filter.inductionOn with
  | hand fs ih =>
    intro hg
    rw [goodFilter] at hg
    rw [Filter.write, FilterParser.parse]
    simp [SearchFilterTag.and, parseSet_writeList fs ih hg]
  | hor fs ih =>
    intro hg
    rw [goodFilter] at hg
    rw [Filter.write, FilterParser.parse]
    simp [SearchFilterTag.and, SearchFilterTag.or, parseSet_writeList fs ih hg]
  | hnot g ih =>
    intro hg
    rw [goodFilter] at hg
    rw [Filter.write, FilterParser.parse]
    simp [SearchFilterTag.and, SearchFilterTag.or, SearchFilterTag.notTag,
      FilterParser.parseNotChildren, ih hg]
  | heq a v =>
    intro hg
    match v with
    | .buf r c => simp [goodFilter] at hg
    | .str s =>
      simp only [goodFilter, Bool.and_eq_true, Bool.or_eq_true,
        decide_eq_true_eq] at hg
      rw [Filter.write, FilterParser.parse]
      simp only [SearchFilterTag.and, SearchFilterTag.or,
        SearchFilterTag.notTag, SearchFilterTag.equalityMatch,
        parseEqualityChildren, readStringElem]
      norm_num [hg.1]
      intro hobj
      rcases hg.2 with hne | hlow
      · exact absurd hobj hne
      · exact hlow

/-- C1 witness: a concrete good filter — an And of an equality on `cn`, a
Not, and an empty Or — round-trips through the binary encoding. -/
theorem c1_roundtrip_amended_witness :
    goodFilter (.and [.equality "cn" (.str "Jim"),
      .not (.equality "objectclass" (.str "person")), .or []]) = true
    ∧ FilterParser.parse (Filter.write (.and [.equality "cn" (.str "Jim"),
        .not (.equality "objectclass" (.str "person")), .or []]))
      = some (.and [.equality "cn" (.str "Jim"),
        .not (.equality "objectclass" (.str "person")), .or []]) := by
  refine ⟨?_, c1_roundtrip_amended _ ?_⟩ <;>
    simp [goodFilter, goodFilterList, jsToLowerCase]

/-- C2: for every entry, an And filter with an empty child list matches
(`true`, as claimed), but an Or filter with an empty child list ALSO
returns `true` from `OrFilter.matches` — the code contradicts the claim
(and RFC 4526, which its own comment cites) that an empty Or matches no
entry. -/
theorem c2_empty_and_or_eval : ∀ (entry : Entry) (strict : Bool),
    Filter.matches (.and []) entry strict = some true
    ∧ Filter.matches (.or []) entry strict = some true := by
  intro entry strict
  constructor <;> rw [Filter.matches] <;> simp [List.isEmpty]

/-- C7: at the failing input — an equality filter whose value is a Buffer
with bytes `"a"` and an entry holding a distinct Buffer with the same bytes
`"a"` for the filter's attribute — `EqualityFilter.matches` returns
`false` although the two byte strings are equal byte-wise: the code
compares Buffers with `===` (object reference equality), not byte-wise. -/
theorem c7_buffer_reference_compare :
    Filter.matches (.equality "cn" (.buf 0 "a")) [("cn", .buf 1 "a")] true
      = some false
    ∧ (JsVal.buf 0 "a").utf8 = (JsVal.buf 1 "a").utf8 := by
  constructor
  · rw [Filter.matches]
    simp [getObjectValue, equalityCompare, List.find?]
  · rfl

/-- `RDN` (`dist/dn/RDN.js`): a relative distinguished name holding
attribute-name/value pairs.  The backing JavaScript object `this.attrs` is
modelled as an association list in property-insertion order; JavaScript
objects hold each key at most once (`Nodup` on the keys). -/
structure RDN where
  attrs : List (String × String)

/-- `Object.keys(this.attrs)`: the attribute names in insertion order. -/
def RDN.keys (r : RDN) : List String := r.attrs.map Prod.fst

/-- `RDN.get` / property access `this.attrs[name]`. -/
def RDN.get (r : RDN) (name : String) : Option String :=
  (r.attrs.find? (fun kv => kv.1 == name)).map (·.2)

/-- `RDN.equals`: compares key counts, sorts both key lists, and walks them
in lockstep comparing the key names and — at each of this RDN's keys — the
two values with `!==` (both comparisons case-sensitive). -/
def RDN.equals (r other : RDN) : Bool :=
  let ourKeys := List.insertionSort (· ≤ ·) r.keys
  let otherKeys := List.insertionSort (· ≤ ·) other.keys
  if ourKeys.length ≠ otherKeys.length then false
  else (ourKeys.zip otherKeys).all fun kk =>
    kk.1 == kk.2 && RDN.get r kk.1 == RDN.get other kk.1

/-- The claim's reading of "hold the same attribute-name/value pairs with
attribute names compared case-insensitively and attribute values compared
case-sensitively, regardless of key order": the multisets of
(lowercased name, value) pairs coincide. -/
def sameAVAsNamesCI (r other : RDN) : Prop :=
  List.Perm (r.attrs.map (fun kv => (jsToLowerCase kv.1, kv.2)))
    (other.attrs.map (fun kv => (jsToLowerCase kv.1, kv.2)))

/-- Two lists of equal length whose zip is pairwise equal are equal. -/
theorem eq_of_zip_forall_eq {α : Type} :
    ∀ {l1 l2 : List α}, l1.length = l2.length →
      (∀ p ∈ l1.zip l2, p.1 = p.2) → l1 = l2
  | [], [], _, _ => rfl
  | [], _ :: _, hlen, _ => by simp at hlen
  | _ :: _, [], hlen, _ => by simp at hlen
  | a :: l1, b :: l2, hlen, h => by
    have hab : a = b :=
      h (a, b) (by rw [List.zip_cons_cons]; exact List.mem_cons_self _ _)
    have ht : l1 = l2 := eq_of_zip_forall_eq (by simpa using hlen)
      (fun p hp =>
        h p (by rw [List.zip_cons_cons]; exact List.mem_cons_of_mem _ hp))
    rw [hab, ht]

/-- Every member of a list pairs with itself in the list's self-zip. -/
theorem self_mem_zip_self {α : Type} {k : α} :
    ∀ {l : List α}, k ∈ l → (k, k) ∈ l.zip l := by
  intro l
  induction l with
  | nil => intro h; simp at h
  | cons a l ih =>
    intro h
    rw [List.zip_cons_cons]
    rcases List.mem_cons.mp h with rfl | h
    · exact List.mem_cons_self _ _
    · exact List.mem_cons_of_mem _ (ih h)

/-- Every pair in a list's self-zip has equal components. -/
theorem zip_self_fst_eq_snd {α : Type} {p : α × α} :
    ∀ {l : List α}, p ∈ l.zip l → p.1 = p.2 := by
  intro l
  induction l with
  | nil => intro h; simp [List.zip] at h
  | cons a l ih =>
    intro h
    rw [List.zip_cons_cons] at h
    rcases List.mem_cons.mp h with rfl | h
    · rfl
    · exact ih h

/-- An RDN holds a value at `name` exactly when `name` is one of its
keys. -/
theorem RDN.get_ne_none_iff (r : RDN) (name : String) :
    r.get name ≠ none ↔ name ∈ r.keys := by
  unfold RDN.get RDN.keys
  constructor
  · intro h
    have hs : (r.attrs.find? (fun kv => kv.1 == name)).isSome = true := by
      rcases hopt : r.attrs.find? (fun kv => kv.1 == name) with _ | kv
      · exact absurd (by rw [hopt]; rfl) h
      · rw [hopt]; rfl
    obtain ⟨kv, hkv, hp⟩ := List.find?_isSome.mp hs
    exact List.mem_map.mpr ⟨kv, hkv, by simpa using hp⟩
  · intro h hmapnone
    obtain ⟨kv, hkv, hfst⟩ := List.mem_map.mp h
    have hnone : r.attrs.find? (fun kv => kv.1 == name) = none :=
      Option.map_eq_none'.mp hmapnone
    exact List.find?_eq_none.mp hnone kv hkv (by simp [hfst])

/-- C8: the claim fails as stated: the RDNs `{CN: "x"}` and `{cn: "x"}`
hold the same attribute-name/value pairs under case-insensitive name
comparison, yet `RDN.equals` returns `false` — the code compares attribute
names case-sensitively. -/
theorem c8_counterexample :
    sameAVAsNamesCI ⟨[("CN", "x")]⟩ ⟨[("cn", "x")]⟩
    ∧ RDN.equals ⟨[("CN", "x")]⟩ ⟨[("cn", "x")]⟩ = false := by
  constructor
  · exact List.Perm.refl _
  · rw [RDN.equals]
    simp [RDN.keys, RDN.get, List.insertionSort, List.orderedInsert]

/-- C8 (amended): for RDNs with duplicate-free key lists (as JavaScript
objects always are), `equals` returns `true` iff the two RDNs hold the same
attribute-name/value pairs regardless of the order keys were set, with both
attribute names and attribute values compared case-sensitively — i.e. iff
the two name-to-value maps agree at every name. -/
theorem c8_equals_amended (r other : RDN)
    (h1 : r.keys.Nodup) (h2 : other.keys.Nodup) :
    RDN.equals r other = true ↔ ∀ name, r.get name = other.get name := by
  constructor
  · intro h
    rw [RDN.equals] at h
    by_cases hlen : (List.insertionSort (· ≤ ·) r.keys).length
        = (List.insertionSort (· ≤ ·) other.keys).length
    · rw [if_neg (by simpa using hlen)] at h
      have hall := List.all_eq_true.mp h
      have hS : List.insertionSort (· ≤ ·) r.keys
          = List.insertionSort (· ≤ ·) other.keys :=
        eq_of_zip_forall_eq hlen fun p hp => by
          have := hall p hp
          simp only [Bool.and_eq_true, beq_iff_eq] at this
          exact this.1
      intro name
      by_cases hmem : name ∈ r.keys
      · have hmemS : name ∈ List.insertionSort (· ≤ ·) r.keys :=
          (List.perm_insertionSort _ _).mem_iff.mpr hmem
        have hzip : (name, name) ∈
            (List.insertionSort (· ≤ ·) r.keys).zip
              (List.insertionSort (· ≤ ·) other.keys) := by
          rw [← hS]
          exact self_mem_zip_self hmemS
        have := hall _ hzip
        simp only [Bool.and_eq_true, beq_iff_eq] at this
        exact this.2
      · have hmem2 : name ∉ other.keys := fun hc => hmem (by
          have : name ∈ List.insertionSort (· ≤ ·) other.keys :=
            (List.perm_insertionSort _ _).mem_iff.mpr hc
          rw [← hS] at this
          exact (List.perm_insertionSort _ _).mem_iff.mp this)
        have e1 : r.get name = none := by
          by_contra hne
          exact hmem ((RDN.get_ne_none_iff r name).mp hne)
        have e2 : other.get name = none := by
          by_contra hne
          exact hmem2 ((RDN.get_ne_none_iff other name).mp hne)
        rw [e1, e2]
    · rw [if_pos (by simpa using hlen)] at h
      exact absurd h (by simp)
  · intro h
    have hmemiff : ∀ k, k ∈ r.keys ↔ k ∈ other.keys := by
      intro k
      rw [← RDN.get_ne_none_iff, ← RDN.get_ne_none_iff, h k]
    have hperm : List.Perm r.keys other.keys :=
      (List.perm_ext_iff_of_nodup h1 h2).mpr hmemiff
    have hS : List.insertionSort (· ≤ ·) r.keys
        = List.insertionSort (· ≤ ·) other.keys :=
      List.eq_of_perm_of_sorted
        ((List.perm_insertionSort _ _).trans
          (hperm.trans (List.perm_insertionSort _ _).symm))
        (List.sorted_insertionSort _ _) (List.sorted_insertionSort _ _)
    rw [RDN.equals, if_neg (by rw [hS]; simp)]
    refine List.all_eq_true.mpr fun p hp => ?_
    rw [← hS] at hp
    have hfe : p.1 = p.2 := zip_self_fst_eq_snd hp
    simp only [Bool.and_eq_true, beq_iff_eq]
    exact ⟨hfe, h p.1⟩

/-- C8 witness: concrete RDNs `{a: "1", b: "2"}` and `{b: "2", a: "1"}`
(same pairs, different key order) have duplicate-free keys and agree at
every name, so the amended theorem applies and `equals` holds. -/
theorem c8_equals_amended_witness :
    (RDN.mk [("a", "1"), ("b", "2")]).keys.Nodup
    ∧ (RDN.mk [("b", "2"), ("a", "1")]).keys.Nodup
    ∧ RDN.equals ⟨[("a", "1"), ("b", "2")]⟩ ⟨[("b", "2"), ("a", "1")]⟩
      = true := by
  refine ⟨by decide, by decide, ?_⟩
  rw [c8_equals_amended _ _ (by decide) (by decide)]
  intro name
  rw [RDN.get, RDN.get]
  by_cases ha : "a" = name
  · simp [List.find?, ← ha]
  · by_cases hb : "b" = name
    · simp [List.find?, ← hb, ha]
    · have ha2 : ("a" == name) = false := beq_eq_false_iff_ne.mpr ha
      have hb2 : ("b" == name) = false := beq_eq_false_iff_ne.mpr hb
      simp [List.find?, ha2, hb2]

/-- `MAX_MESSAGE_ID = 2 ** 31 - 1` (`Client.ts`). -/
def MAX_MESSAGE_ID : Nat := 2 ^ 31 - 1

/-- `Client._nextMessageId`: pre-increments the counter and wraps it back
to 1 once it reaches `MAX_MESSAGE_ID`; the returned id is the new counter
value. -/
def nextMessageId (messageId : Nat) : Nat :=
  let m := messageId + 1
  if m ≥ MAX_MESSAGE_ID then 1 else m

/-- The ids returned by `n` successive `_nextMessageId` calls starting from
counter state `s`. -/
def allocIds : Nat → Nat → List Nat
  | _, 0 => []
  | s, n + 1 => nextMessageId s :: allocIds (nextMessageId s) n

/-- Before the wrap point, the `i`-th allocated id from counter state `s`
is `s + i + 1`. -/
theorem allocIds_getD (s n i : Nat) (hs : s + n < MAX_MESSAGE_ID)
    (hi : i < n) : (allocIds s n).getD i 0 = s + i + 1 := by
  induction n generalizing s i with
  | zero => omega
  | succ m ih =>
    have hnext : nextMessageId s = s + 1 := by
      rw [nextMessageId]
      show (if s + 1 ≥ MAX_MESSAGE_ID then 1 else s + 1) = s + 1
      rw [if_neg (by omega)]
    rw [allocIds, hnext]
    match i with
    | 0 => rfl
    | j + 1 =>
      have ht : (allocIds (s + 1) m).getD j 0 = (s + 1) + j + 1 :=
        ih (s + 1) j (by omega) (by omega)
      rw [List.getD_cons_succ, ht]
      omega

/-- The entries of the Pending Request Table
(`messageDetailsByMessageId`) that the `socketClose` handler inspects:
the key, whether the stored message is an `UnbindRequest`, and the
`owning-socket` id captured at send time (`messageDetails.socket.id`). -/
structure PendingEntry where
  messageId : Nat
  isUnbind : Bool
  socketId : Nat
deriving Repr, DecidableEq

/-- The `socketClose` handler's sweep over the Pending Request Table:
every entry whose owning-socket id equals the closing socket's id is
removed — resolved when it holds an `UnbindRequest`, rejected otherwise.
Returns (remaining table, resolved entries, rejected entries). -/
def socketClose (closingId : Nat) :
    List PendingEntry → List PendingEntry × List PendingEntry × List PendingEntry
  | [] => ([], [], [])
  | e :: rest =>
    let (rem, res, rej) := socketClose closingId rest
    if e.socketId == closingId then
      if e.isUnbind then (rem, e :: res, rej) else (rem, res, e :: rej)
    else (e :: rem, res, rej)

/-- C6: when a socket closes, every Pending Request Table entry owned by
that socket is removed — resolved if it holds an UnbindRequest, rejected
otherwise — and afterwards the table holds zero entries whose owning-socket
id equals the closed socket's id (entries owned by other sockets are kept,
in order). -/
theorem c6_socketClose_drains (closingId : Nat) (table : List PendingEntry) :
    (∀ e ∈ (socketClose closingId table).1, e.socketId ≠ closingId)
    ∧ (socketClose closingId table).2.1
      = table.filter (fun e => e.socketId == closingId && e.isUnbind)
    ∧ (socketClose closingId table).2.2
      = table.filter (fun e => e.socketId == closingId && !e.isUnbind)
    ∧ (socketClose closingId table).1
      = table.filter (fun e => e.socketId != closingId) := by
  induction table with
  | nil => exact ⟨by intro e he; simp [socketClose] at he, rfl, rfl, rfl⟩
  | cons e rest ih =>
    obtain ⟨ih1, ih2, ih3, ih4⟩ := ih
    cases hid : (e.socketId == closingId) with
    | false =>
      have hne : e.socketId ≠ closingId := by
        intro hc
        rw [hc] at hid
        simp at hid
      refine ⟨?_, ?_, ?_, ?_⟩
      · intro x hx
        simp only [socketClose, hid, Bool.false_eq_true, if_false] at hx
        rcases List.mem_cons.mp hx with rfl | hx
        · exact hne
        · exact ih1 x hx
      · simp [socketClose, hid, List.filter_cons, ih2]
      · simp [socketClose, hid, List.filter_cons, ih3]
      · simp [socketClose, hid, List.filter_cons, ih4, hne]
    | true =>
      have heq : e.socketId = closingId := by simpa using hid
      cases hub : e.isUnbind with
      | true =>
        refine ⟨?_, ?_, ?_, ?_⟩
        · intro x hx
          simp only [socketClose, hid, hub, if_true] at hx
          exact ih1 x hx
        · simp [socketClose, hid, hub, List.filter_cons, ih2]
        · simp [socketClose, hid, hub, List.filter_cons, ih3]
        · simp [socketClose, hid, hub, List.filter_cons, ih4, heq]
      | false =>
        refine ⟨?_, ?_, ?_, ?_⟩
        · intro x hx
          simp only [socketClose, hid, hub, if_true, Bool.false_eq_true,
            if_false] at hx
          exact ih1 x hx
        · simp [socketClose, hid, hub, List.filter_cons, ih2]
        · simp [socketClose, hid, hub, List.filter_cons, ih3]
        · simp [socketClose, hid, hub, List.filter_cons, ih4, heq]

/-- C5: message ids are allocated by the pre-incremented counter: starting
from the initial counter state 1, the first allocation returns 2, and any
two allocations before the wrap point return strictly increasing (hence
pairwise distinct) ids; when the counter stands at `2^31 - 2`, the next
allocation overflows at the wrap point `2^31 - 1` and returns 1. -/
theorem c5_messageId_allocation (n i j : Nat) (hn : 1 + n < MAX_MESSAGE_ID)
    (hij : i < j) (hj : j < n) :
    (0 < n → (allocIds 1 n).getD 0 0 = 2)
    ∧ (allocIds 1 n).getD i 0 < (allocIds 1 n).getD j 0
    ∧ (allocIds 1 n).getD i 0 ≠ (allocIds 1 n).getD j 0
    ∧ nextMessageId (MAX_MESSAGE_ID - 1) = 1 := by
  have hvi := allocIds_getD 1 n i (by omega) (by omega)
  have hvj := allocIds_getD 1 n j (by omega) hj
  refine ⟨fun hpos => ?_, by omega, by omega, ?_⟩
  · have h0 := allocIds_getD 1 n 0 (by omega) hpos
    simpa using h0
  · rw [nextMessageId]
    show (if MAX_MESSAGE_ID - 1 + 1 ≥ MAX_MESSAGE_ID then 1
      else MAX_MESSAGE_ID - 1 + 1) = 1
    rw [if_pos (by omega)]

/-- C5 witness: three allocations from the initial counter yield ids
2, 3, 4: the first is 2, and the 0th and 2nd are strictly increasing and
distinct; the wrap returns 1. -/
theorem c5_messageId_allocation_witness :
    1 + 3 < MAX_MESSAGE_ID ∧ 0 < 2 ∧ 2 < 3
    ∧ ((0 < 3 → (allocIds 1 3).getD 0 0 = 2)
      ∧ (allocIds 1 3).getD 0 0 < (allocIds 1 3).getD 2 0
      ∧ (allocIds 1 3).getD 0 0 ≠ (allocIds 1 3).getD 2 0
      ∧ nextMessageId (MAX_MESSAGE_ID - 1) = 1) :=
  ⟨by decide, by decide, by decide,
    c5_messageId_allocation 3 0 2 (by decide) (by decide) (by decide)⟩

/-- The value of a Paged-Results control (RFC 2696): the page `size` and
the opaque `cookie` (`none` = the `cookie` field is unset). -/
structure PagedValue where
  size : Nat
  cookie : Option String
deriving Repr, DecidableEq

/-- A `PagedResultsControl` object: its `value` may itself be unset. -/
structure PagedResultsControlRec where
  value : Option PagedValue
deriving Repr, DecidableEq

/-- A control as `Client.search` / `_sendSearch` discriminate them:
either a `PagedResultsControl` (`instanceof` test) or any other control,
kept opaque by its OID. -/
inductive Control where
  | pagedResults (ctl : PagedResultsControlRec)
  | other (oid : String)
deriving Repr, DecidableEq

/-- The cookie a request's Paged-Results control carries
(`control.value.cookie`, `none` when `value` is unset). -/
def PagedResultsControlRec.cookieOf (c : PagedResultsControlRec) : Option String :=
  c.value.bind (·.cookie)

/-- Modelled from the spec: `MessageResponseStatus.Success` is result code
0 (§7/RFC 4511 §4.1.9; the enum source file is not among the given
sources). -/
def MessageResponseStatus.Success : Nat := 0

/-- Modelled from the spec: `MessageResponseStatus.SizeLimitExceeded` is
result code 4 (§7/RFC 4511 §4.1.9; the enum source file is not among the
given sources). -/
def MessageResponseStatus.SizeLimitExceeded : Nat := 4

/-- A typed server error. -/
structure LdapError where
  code : Nat
  message : String
deriving Repr, DecidableEq

/-- Modelled from the spec: `StatusCodeParser.parse` (source not among the
given files) maps a non-success `(statusCode, errorMessage)` pair to the
distinct typed error identity for that code. -/
def StatusCodeParser.parse (code : Nat) (msg : String) : LdapError := ⟨code, msg⟩

/-- The fields of a `SearchRequest` that `_sendSearch` observes (the DN,
filter and attribute fields ride along unchanged). -/
structure SearchRequestRec where
  baseDN : String
  filter : Option Filter
  sizeLimit : Nat
deriving Repr

/-- One server `SearchResponse` (a page): its result status and error
message, the `SearchEntry` payloads and `SearchReference` URIs delivered
with it, and its response controls. -/
structure SearchPage where
  status : Nat
  errorMessage : String
  entries : List String
  referenceUris : List String
  controls : List Control
deriving Repr, DecidableEq

/-- The accumulating search result (`searchEntries` /
`searchReferences`). -/
structure SearchResult where
  searchEntries : List String
  searchReferences : List String
deriving Repr, DecidableEq

/-- What one `_send` of a SearchRequest looks like on the wire: the
messageId stamped on the request and — when a Paged-Results control is
attached — the cookie it carries (`some none` = control attached with no
cookie yet). -/
structure SentRequest where
  messageId : Nat
  pagedCookie : Option (Option String)
deriving Repr, DecidableEq

/-- The outcome of `_sendSearch`: resolution with the accumulated result,
rejection with a typed error, or exhaustion of the scripted server pages
while a request is still awaiting its response. -/
inductive SearchOutcome where
  | ok (result : SearchResult)
  | err (e : LdapError)
  | noResponse
deriving Repr, DecidableEq

/-- The `for (const control of result.controls || [])` loop of
`_sendSearch`: the first response control that is a
`PagedResultsControl`. -/
def findPagedControl : List Control → Option PagedResultsControlRec
  | [] => none
  | .pagedResults c :: _ => some c
  | .other _ :: rest => findPagedControl rest

/-- The truthiness chain `pagedResultsFromResponse &&
pagedResultsFromResponse.value && pagedResultsFromResponse.value.cookie &&
pagedResultsFromResponse.value.cookie.length` of `_sendSearch`: the
server's cookie, provided the page has a Paged-Results response control
whose value holds a non-empty cookie. -/
def serverCookie (page : SearchPage) : Option String :=
  match findPagedControl page.controls with
  | none => none
  | some respCtl =>
    match respCtl.value with
    | none => none
    | some v =>
      match v.cookie with
      | none => none
      | some cookie => if cookie = "" then none else some cookie

/-- `Client._sendSearch`, its recursion structured on the script of server
pages (one page answers one issued SearchRequest): stamp a fresh messageId
on the request and send it; reject non-success statuses unless the status
is `SizeLimitExceeded` and the caller set a `sizeLimit`; append the page's
entries and reference URIs; then, when paging is active
(`paged && … && pagedResultsControl`), the page was non-empty, and the
response carries a Paged-Results control with a non-empty cookie
(`serverCookie`), copy the server's cookie into the request control
(`value = value || {size: pageSize}; value.cookie = cookie`) and recurse.
Returns the outcome, the trace of issued requests, and the final messageId
counter. -/
def sendSearch (messageId : Nat) (req : SearchRequestRec) (paged : Bool)
    (pageSize : Nat) (ctl : Option PagedResultsControlRec) (acc : SearchResult) :
    List SearchPage → SearchOutcome × List SentRequest × Nat
  | [] =>
    let id := nextMessageId messageId
    (.noResponse, [⟨id, ctl.map (·.cookieOf)⟩], id)
  | page :: rest =>
    let id := nextMessageId messageId
    let sent : SentRequest := ⟨id, ctl.map (·.cookieOf)⟩
    if ¬(page.status = MessageResponseStatus.Success ∨
        (page.status = MessageResponseStatus.SizeLimitExceeded ∧
          req.sizeLimit ≠ 0)) then
      (.err (StatusCodeParser.parse page.status page.errorMessage), [sent], id)
    else
      let acc' : SearchResult :=
        ⟨acc.searchEntries ++ page.entries,
          acc.searchReferences ++ page.referenceUris⟩
      match ctl, serverCookie page with
      | some theCtl, some cookie =>
        if paged ∧ (page.entries ≠ [] ∨ page.referenceUris ≠ []) then
          let oldValue : PagedValue := theCtl.value.getD ⟨pageSize, none⟩
          let newCtl : PagedResultsControlRec :=
            ⟨some ⟨oldValue.size, some cookie⟩⟩
          let r := sendSearch id req paged pageSize (some newCtl) acc' rest
          (r.1, sent :: r.2.1, r.2.2)
        else (.ok acc', [sent], id)
      | _, _ => (.ok acc', [sent], id)

/-- Whatever the page script holds, `_sendSearch` first issues one request
stamped with the next messageId and carrying the current request control's
cookie. -/
theorem sendSearch_trace_head (mid : Nat) (req : SearchRequestRec)
    (paged : Bool) (pageSize : Nat) (ctl : Option PagedResultsControlRec)
    (acc : SearchResult) (pages : List SearchPage) :
    ∃ t, (sendSearch mid req paged pageSize ctl acc pages).2.1
      = ⟨nextMessageId mid, ctl.map (·.cookieOf)⟩ :: t := by
  cases pages with
  | nil => exact ⟨[], rfl⟩
  | cons p rest =>
    rw [sendSearch]
    repeat' split
    all_goals exact ⟨_, rfl⟩

/-- The condition under which `_sendSearch` recurses for a further page:
the page delivered at least one entry or reference, and its response
controls include a Paged-Results control whose value holds a non-empty
cookie. -/
def pageContinues (p : SearchPage) : Prop :=
  (p.entries ≠ [] ∨ p.referenceUris ≠ []) ∧ serverCookie p ≠ none

/-- C3: the claim fails as stated: a paged search whose first page comes
back successful with NO entries and no references but a NON-empty
Paged-Results cookie `"abc"` terminates after that single request (the
loop also requires the page to be non-empty), although the claim says the
loop terminates exactly when the server returns an empty cookie. -/
theorem c3_counterexample :
    sendSearch 1 ⟨"dc=example,dc=com", none, 0⟩ true 100
        (some ⟨some ⟨100, none⟩⟩) ⟨[], []⟩
        [⟨0, "", [], [], [.pagedResults ⟨some ⟨100, some "abc"⟩⟩]⟩]
      = (.ok ⟨[], []⟩, [⟨2, some none⟩], 2)
    ∧ findPagedControl [Control.pagedResults ⟨some ⟨100, some "abc"⟩⟩]
      = some ⟨some ⟨100, some "abc"⟩⟩
    ∧ "abc" ≠ "" := by
  refine ⟨by decide, rfl, by decide⟩

/-- C3 (amended): for a successful page (status success, or
size-limit-exceeded with a caller sizeLimit) in a paged search, the loop
terminates with that page exactly when the page carried no entries and no
references, or the Paged-Results response control is absent, or its cookie
is absent or empty; otherwise a further SearchRequest is issued with a
fresh (incremented) messageId and the server's cookie copied into the
request's Paged-Results control. -/
theorem c3_paging_amended (mid : Nat) (req : SearchRequestRec)
    (pageSize : Nat) (c : PagedResultsControlRec) (acc : SearchResult)
    (p : SearchPage) (rest : List SearchPage)
    (hok : p.status = MessageResponseStatus.Success ∨
      (p.status = MessageResponseStatus.SizeLimitExceeded ∧
        req.sizeLimit ≠ 0)) :
    (¬pageContinues p →
      sendSearch mid req true pageSize (some c) acc (p :: rest)
        = (.ok ⟨acc.searchEntries ++ p.entries,
            acc.searchReferences ++ p.referenceUris⟩,
          [⟨nextMessageId mid, some c.cookieOf⟩], nextMessageId mid))
    ∧ (∀ cookie, serverCookie p = some cookie →
      (p.entries ≠ [] ∨ p.referenceUris ≠ []) →
      ∃ t outcome finalId,
        sendSearch mid req true pageSize (some c) acc (p :: rest)
          = (outcome,
            ⟨nextMessageId mid, some c.cookieOf⟩ ::
              ⟨nextMessageId (nextMessageId mid), some (some cookie)⟩ :: t,
            finalId)) := by
  constructor
  · intro hnc
    rw [sendSearch, if_neg (not_not_intro hok)]
    cases hsc : serverCookie p with
    | none => rfl
    | some cookie =>
      have hne : ¬(p.entries ≠ [] ∨ p.referenceUris ≠ []) := fun hc =>
        hnc ⟨hc, by rw [hsc]; exact fun h => Option.noConfusion h⟩
      split
      · rw [if_neg (fun hc => hne hc.2)]
        rfl
      · next ximp => exact (ximp c cookie rfl rfl).elim
  · intro cookie hsc hne
    obtain ⟨t, ht⟩ := sendSearch_trace_head (nextMessageId mid) req true
      pageSize (some ⟨some ⟨(c.value.getD ⟨pageSize, none⟩).size,
        some cookie⟩⟩)
      ⟨acc.searchEntries ++ p.entries,
        acc.searchReferences ++ p.referenceUris⟩ rest
    refine ⟨t,
      (sendSearch (nextMessageId mid) req true pageSize
        (some ⟨some ⟨(c.value.getD ⟨pageSize, none⟩).size, some cookie⟩⟩)
        ⟨acc.searchEntries ++ p.entries,
          acc.searchReferences ++ p.referenceUris⟩ rest).1,
      (sendSearch (nextMessageId mid) req true pageSize
        (some ⟨some ⟨(c.value.getD ⟨pageSize, none⟩).size, some cookie⟩⟩)
        ⟨acc.searchEntries ++ p.entries,
          acc.searchReferences ++ p.referenceUris⟩ rest).2.2, ?_⟩
    rw [sendSearch, if_neg (not_not_intro hok), hsc]
    split
    next theCtl cookie2 heq1 heq2 =>
      injection heq1 with h1
      injection heq2 with h2
      subst h1
      subst h2
      rw [if_pos ⟨rfl, hne⟩]
      simp only [ht]
      rfl
    next ximp => exact (ximp c cookie rfl rfl).elim

/-- C3 witness: a concrete paged search — first page successful with one
entry and server cookie `"abc"` — issues a second request with the next
messageId 3 and the cookie `"abc"` copied into its Paged-Results
control. -/
theorem c3_paging_amended_witness :
    serverCookie ⟨0, "", ["e1"], [], [.pagedResults ⟨some ⟨100, some "abc"⟩⟩]⟩
      = some "abc"
    ∧ ∃ t outcome finalId,
      sendSearch 1 ⟨"o=example", none, 0⟩ true 100 (some ⟨some ⟨100, none⟩⟩)
          ⟨[], []⟩
          [⟨0, "", ["e1"], [], [.pagedResults ⟨some ⟨100, some "abc"⟩⟩]⟩]
        = (outcome, ⟨2, some none⟩ :: ⟨3, some (some "abc")⟩ :: t, finalId) :=
  ⟨by decide,
    (c3_paging_amended 1 ⟨"o=example", none, 0⟩ 100 ⟨some ⟨100, none⟩⟩
      ⟨[], []⟩ _ [] (Or.inl rfl)).2 "abc" (by decide)
      (Or.inl (by decide))⟩

/-- C4: for a search whose request carries a caller-specified non-zero
`sizeLimit`, a response status of `sizeLimitExceeded` is treated as
success — the search resolves with the entries and references received —
while any other non-success status rejects with the typed error the
Status-Code mapper produces for that status and error message. -/
theorem c4_sizeLimit_status (mid : Nat) (req : SearchRequestRec)
    (pageSize : Nat) (acc : SearchResult) (p : SearchPage)
    (rest : List SearchPage) (hsl : req.sizeLimit ≠ 0) :
    (p.status = MessageResponseStatus.SizeLimitExceeded →
      sendSearch mid req false pageSize none acc (p :: rest)
        = (.ok ⟨acc.searchEntries ++ p.entries,
            acc.searchReferences ++ p.referenceUris⟩,
          [⟨nextMessageId mid, none⟩], nextMessageId mid))
    ∧ (p.status ≠ MessageResponseStatus.Success →
      p.status ≠ MessageResponseStatus.SizeLimitExceeded →
      sendSearch mid req false pageSize none acc (p :: rest)
        = (.err (StatusCodeParser.parse p.status p.errorMessage),
          [⟨nextMessageId mid, none⟩], nextMessageId mid)) := by
  constructor
  · intro hst
    rw [sendSearch, if_neg (not_not_intro (Or.inr ⟨hst, hsl⟩))]
    cases hsc : serverCookie p with
    | none => rfl
    | some ck => rfl
  · intro hs1 hs2
    rw [sendSearch, if_pos (fun hc => hc.elim hs1 (fun h => hs2 h.1))]
    rfl

/-- C4 witness: a search with `sizeLimit = 5` receiving a single page with
status `sizeLimitExceeded` (4) and one entry resolves with that entry and
does not produce an error. -/
theorem c4_sizeLimit_status_witness :
    (5 : Nat) ≠ 0
    ∧ sendSearch 1 ⟨"o=example", none, 5⟩ false 100 none ⟨[], []⟩
        [⟨4, "size limit exceeded", ["e1"], [], []⟩]
      = (.ok ⟨["e1"], []⟩, [⟨2, none⟩], 2) :=
  ⟨by decide,
    (c4_sizeLimit_status 1 ⟨"o=example", none, 5⟩ 100 ⟨[], []⟩
      ⟨4, "size limit exceeded", ["e1"], [], []⟩ [] (by decide)).1 rfl⟩

/-- The `options.paged` argument of `Client.search`: absent, a boolean, or
a `SearchPageOptions` object with an optional `pageSize`. -/
inductive PagedParam where
  | unset
  | flag (b : Bool)
  | withOptions (pageSize : Option Nat)
deriving Repr, DecidableEq

/-- `const shouldPage = !!options.paged`. -/
def PagedParam.shouldPage : PagedParam → Bool
  | .unset => false
  | .flag b => b
  | .withOptions _ => true

/-- The `SearchOptions` fields `Client.search` reads for paging and limits
(the scope, deref, time-limit and attribute fields ride along into the
request unchanged; an absent `filter` stands for the default
`PresenceFilter` on `objectclass`, whose class is outside the given
sources). -/
structure SearchOptionsRec where
  sizeLimit : Nat
  paged : PagedParam
  filter : Option Filter

/-- The page-size computation of `Client.search`: an explicit truthy
`paged.pageSize` wins; else `sizeLimit - 1` when a truthy `sizeLimit`
exceeds 1; else 100. -/
def computedPageSize (opts : SearchOptionsRec) : Nat :=
  match opts.paged with
  | .withOptions (some n) =>
    if n ≠ 0 then n
    else if opts.sizeLimit > 1 then opts.sizeLimit - 1 else 100
  | _ => if opts.sizeLimit > 1 then opts.sizeLimit - 1 else 100

/-- Whether the caller-supplied controls list contains a
`PagedResultsControl` (the `instanceof` scan in `Client.search`). -/
def hasPagedControl : List Control → Bool
  | [] => false
  | .pagedResults _ :: _ => true
  | .other _ :: rest => hasPagedControl rest

/-- `Client.search`: after connecting, rejects a caller-supplied
Paged-Results control with `Should not specify PagedResultsControl` before
anything is sent; otherwise computes the page size, appends an internal
Paged-Results control when paging is requested, builds the SearchRequest
and runs `_sendSearch`.  Returns the outcome (`Except` the synchronous
error), the trace of issued requests, and the final messageId counter. -/
def Client.search (messageId : Nat) (baseDN : String)
    (opts : SearchOptionsRec) (controls : List Control)
    (pages : List SearchPage) :
    Except String SearchOutcome × List SentRequest × Nat :=
  if hasPagedControl controls then
    (.error "Should not specify PagedResultsControl", [], messageId)
  else
    let pageSize := computedPageSize opts
    let ctl : Option PagedResultsControlRec :=
      if opts.paged.shouldPage then some ⟨some ⟨pageSize, none⟩⟩ else none
    let req : SearchRequestRec := ⟨baseDN, opts.filter, opts.sizeLimit⟩
    let r := sendSearch messageId req opts.paged.shouldPage pageSize ctl
      ⟨[], []⟩ pages
    (.ok r.1, r.2.1, r.2.2)

/-- C9: a `search` call whose controls argument contains a
`PagedResultsControl` rejects with the `Should not specify
PagedResultsControl` error before any SearchRequest is issued: the request
trace is empty (nothing is written to the socket) and the messageId
counter is unchanged (no id was allocated). -/
theorem c9_paged_control_rejected (messageId : Nat) (baseDN : String)
    (opts : SearchOptionsRec) (controls : List Control)
    (pages : List SearchPage) (h : hasPagedControl controls = true) :
    Client.search messageId baseDN opts controls pages
      = (.error "Should not specify PagedResultsControl", [], messageId) := by
  rw [Client.search, if_pos h]

/-- C9 witness: a concrete search carrying a caller-supplied Paged-Results
control errors out with an empty request trace and an untouched counter. -/
theorem c9_paged_control_rejected_witness :
    hasPagedControl [.other "1.2.840.113556.1.4.417",
      .pagedResults ⟨some ⟨10, none⟩⟩] = true
    ∧ Client.search 1 "o=example" ⟨0, .unset, none⟩
        [.other "1.2.840.113556.1.4.417", .pagedResults ⟨some ⟨10, none⟩⟩] []
      = (.error "Should not specify PagedResultsControl", [], 1) :=
  ⟨by decide,
    c9_paged_control_rejected 1 "o=example" ⟨0, .unset, none⟩
      [.other "1.2.840.113556.1.4.417", .pagedResults ⟨some ⟨10, none⟩⟩] []
      (by decide)⟩

/-- The Client state `unbind` touches: the `connected` flag, the current
socket's id (if any), the messageId counter, and the Pending Request
Table. -/
structure ClientState where
  connected : Bool
  socket : Option Nat
  messageId : Nat
  pending : List PendingEntry
deriving Repr, DecidableEq

/-- `Client.unbind`: returns immediately when not connected or without a
socket; otherwise allocates the next messageId, inserts the UnbindRequest
into the Pending Request Table (`_send`), and ends the socket
(`_endSocket` clears `connected`).  The second component reports the
messageId of the UnbindRequest that was written, if any. -/
def Client.unbind (st : ClientState) : ClientState × Option Nat :=
  if ¬(st.connected = true) ∨ st.socket = none then (st, none)
  else
    match st.socket with
    | some sockId =>
      let id := nextMessageId st.messageId
      ({ connected := false, socket := st.socket, messageId := id,
         pending := st.pending ++ [⟨id, true, sockId⟩] }, some id)
    | none => (st, none)

/-- C10: calling `unbind` on a Client that is not connected or has no
socket resolves immediately with no effect: no message id is allocated, no
UnbindRequest is written, and the Client state (connected flag, messageId
counter, Pending Request Table) is unchanged. -/
theorem c10_unbind_not_connected (st : ClientState)
    (h : st.connected = false ∨ st.socket = none) :
    Client.unbind st = (st, none) := by
  rw [Client.unbind, if_pos]
  rcases h with h | h
  · exact Or.inl (by rw [h]; exact Bool.false_ne_true)
  · exact Or.inr h

/-- C10 witness: a disconnected Client with a live-looking socket id,
a counter at 7 and one pending entry is returned untouched by `unbind`. -/
theorem c10_unbind_not_connected_witness :
    ((⟨false, some 5, 7, [⟨2, false, 5⟩]⟩ : ClientState).connected = false
      ∨ (⟨false, some 5, 7, [⟨2, false, 5⟩]⟩ : ClientState).socket = none)
    ∧ Client.unbind ⟨false, some 5, 7, [⟨2, false, 5⟩]⟩
      = (⟨false, some 5, 7, [⟨2, false, 5⟩]⟩, none) :=
  ⟨Or.inl rfl,
    c10_unbind_not_connected ⟨false, some 5, 7, [⟨2, false, 5⟩]⟩
      (Or.inl rfl)⟩

end Ldapts
